import Mathlib

/-!
Shallow embedding of the HubspotReports scripts
(src/FinancialYearMargin.py and src/GithubVersionFutureMargin.py).

The two scripts share the same per-deal aggregation loop (extract_data).
We embed that loop as an explicit fold over a state record, with the
Python failure modes made explicit through an error type:
a TypeError / ValueError from float(None) or float of an empty string,
a ZeroDivisionError from dividing by a zero total, and an
UnboundLocalError from returning the loop variable margin when the loop
body never ran (empty input).

Numeric values are modelled as rationals.  The raw HubSpot property
values are strings (or JSON null); the Python code tests their
truthiness before and after conversion to float, and a non-empty
numeric string such as the string 0 is truthy while the float 0.0 is
not, so the loop variable net_revenue is modelled by a small inductive
type that remembers whether the value is still the raw string or has
already been converted to a float by the NZD branch.  A missing
property (None) and an empty string behave identically at every use
site of net_revenue (both are falsy, and float of either raises), so
both are modelled by Option.none.
-/

/-- Python exceptions that the embedded code can raise. -/
inductive PyErr where
  | typeError      -- float(None) or float of an empty string
  | zeroDiv        -- ZeroDivisionError
  | unboundLocal   -- UnboundLocalError: margin referenced before assignment
  deriving DecidableEq, Repr

/-- A deal record as consumed by extract_data.  The amount field models
the amount property in FinancialYearMargin.py and the
amount_in_home_currency property in GithubVersionFutureMargin.py; the
deals the scripts process are assumed to carry a numeric amount.
net_revenue is none when the property is missing or the empty string,
and some v when it is a non-empty numeric string denoting v.
currency models deal_currency_code, none when missing. -/
structure Deal where
  amount : ℚ
  net_revenue : Option ℚ
  currency : Option String
  deriving DecidableEq, Repr

/-- The loop variable net_revenue inside extract_data: either the raw
property value (null or a non-empty numeric string) or a float produced
by the NZD conversion branch.  The distinction matters for Python
truthiness: a non-empty string is truthy even when it denotes 0, while
the float 0.0 is falsy. -/
inductive PyNum where
  | nullv
  | strv (v : ℚ)
  | floatv (v : ℚ)
  deriving DecidableEq, Repr

/-- Python truthiness of the net_revenue loop variable. -/
def PyNum.truthy : PyNum → Bool
  | .nullv => false
  | .strv _ => true
  | .floatv v => v != 0

/-- The numeric value float(net_revenue) of a (truthy) net_revenue. -/
def PyNum.toRat : PyNum → ℚ
  | .nullv => 0
  | .strv v => v
  | .floatv v => v

/-- The mutable locals of the extract_data loop: the running totals
num_amounts and num_net_revenue, the loop variable margin (none while
still unassigned), and the length of the idcal list. -/
structure AggState where
  num_amounts : ℚ
  num_net_revenue : ℚ
  margin : Option ℚ
  idcal : ℕ
  deriving DecidableEq, Repr

/-- The locals at entry of the loop: num_amounts = 0, num_net_revenue = 0,
margin unassigned, idcal empty. -/
def initState : AggState := ⟨0, 0, none, 0⟩

/-- One iteration of the extract_data loop
(src/FinancialYearMargin.py lines 89-111,
src/GithubVersionFutureMargin.py lines 113-134):
NZD conversion of net_revenue, accumulation of the totals with the
amount fallback for a falsy net_revenue, and the per-iteration margin
computation which raises ZeroDivisionError when num_amounts is zero. -/
def extractStep (rate : Option ℚ) (st : AggState) (d : Deal) :
    Except PyErr AggState :=
  let nr0 : PyNum :=
    match d.net_revenue with
    | none => .nullv
    | some v => .strv v
  let nrE : Except PyErr PyNum :=
    if d.currency = some "NZD" then
      match rate with
      | some r =>
          match d.net_revenue with
          | none => .error .typeError
          | some v => if r = 0 then .error .zeroDiv else .ok (.floatv (v / r))
      | none => .ok nr0
    else .ok nr0
  match nrE with
  | .error e => .error e
  | .ok nr =>
      let num_amounts := st.num_amounts + d.amount
      let num_net_revenue :=
        if nr.truthy then st.num_net_revenue + nr.toRat
        else st.num_net_revenue + d.amount
      if num_amounts = 0 then .error .zeroDiv
      else
        .ok ⟨num_amounts, num_net_revenue,
             some (num_net_revenue / num_amounts * 100), st.idcal + 1⟩

/-- The extract_data loop as a left fold, aborting at the first raised
exception. -/
def foldSteps (rate : Option ℚ) : AggState → List Deal → Except PyErr AggState
  | st, [] => .ok st
  | st, d :: ds =>
      match extractStep rate st d with
      | .error e => .error e
      | .ok st' => foldSteps rate st' ds

/-- The effective net revenue contributed by a deal that does not take
the NZD conversion branch: the net_revenue property when it is a
non-empty string, otherwise the amount fallback. -/
def effBase (d : Deal) : ℚ :=
  match d.net_revenue with
  | some v => v
  | none => d.amount

/-- Rounding to two decimal places, a model of the round(x, 2) calls of
the scripts (it agrees with the Python builtin away from ties, and the
values the claims mention are not ties). -/
def pyRound2 (q : ℚ) : ℚ := (⌊q * 100 + 1 / 2⌋ : ℚ) / 100

namespace FinancialYearMargin

/-- HubSpotAPI.extract_data of src/FinancialYearMargin.py (lines 72-113):
runs the loop from the initial locals and returns the pair
(margin, len(idcal)); returning margin raises UnboundLocalError when the
loop never ran. -/
def extract_data (deals : List Deal) (rate : Option ℚ) :
    Except PyErr (ℚ × ℕ) :=
  match foldSteps rate initState deals with
  | .error e => .error e
  | .ok st =>
      match st.margin with
      | none => .error .unboundLocal
      | some m => .ok (m, st.idcal)

/-- The body of the inner loop of HubSpotAPI.alltime
(src/FinancialYearMargin.py lines 167-175): given the concatenated
fetch results for one (period, stage category) cell, append the NA
sentinel pair when no deals were retrieved, otherwise the computed
margin and count.  none models the NA string the script appends. -/
def cellResult (rate : Option ℚ) (all_deals : List Deal) :
    Except PyErr (Option ℚ × Option ℕ) :=
  if all_deals.isEmpty then .ok (none, none)
  else
    match extract_data all_deals rate with
    | .error e => .error e
    | .ok (m, t) => .ok (some m, some t)



/-- The inner loop of HubSpotAPI.alltime
(src/FinancialYearMargin.py lines 162-175) for one period: for each
stage category, fetch with the limit strategy and with the after
strategy, concatenate, and append the margin and count (or NA) of the
cell.  The external find_deals call is the fetch parameter
(start, end, stage category, pagination type). -/
def alltimeLoop (fetch : String → String → List String → String → List Deal)
    (rate : Option ℚ) (start stop : String) :
    List (List String) → Except PyErr (List (Option ℚ) × List (Option ℕ))
  | [] => .ok ([], [])
  | stage_category :: rest =>
      match cellResult rate
          (fetch start stop stage_category "limit" ++
           fetch start stop stage_category "after") with
      | .error e => .error e
      | .ok (m, t) =>
          match alltimeLoop fetch rate start stop rest with
          | .error e => .error e
          | .ok (ms, ts) => .ok (m :: ms, t :: ts)

/-- HubSpotAPI.alltime (src/FinancialYearMargin.py lines 135-177): the
outer loop over the two periods (current quarter, then financial year),
each running the inner loop over the stage categories; the margins and
totals lists of the two periods are produced in that order. -/
def alltime (fetch : String → String → List String → String → List Deal)
    (deal_stage : List (List String))
    (quarterstart quarterend financialstart financialend : String)
    (rate : Option ℚ) :
    Except PyErr (List (Option ℚ) × List (Option ℕ)) :=
  match alltimeLoop fetch rate quarterstart quarterend deal_stage with
  | .error e => .error e
  | .ok (m1, t1) =>
      match alltimeLoop fetch rate financialstart financialend deal_stage with
      | .error e => .error e
      | .ok (m2, t2) => .ok (m1 ++ m2, t1 ++ t2)

/-- The output loop of main (src/FinancialYearMargin.py lines 233-248)
with the mutable locals row, col and values_entered made explicit;
each report value is emitted together with the (column index, row)
cell it is written to.  After every third value the column advances
and the row restarts at 1 and is then incremented, so the next block
starts at row 2. -/
def mainWriterGo : ℕ → ℕ → ℕ → List String → List ((ℕ × ℕ) × String)
  | _, _, _, [] => []
  | row, col, values_entered, report :: rest =>
      let ve := values_entered + 1
      if ve % 3 = 0 then ((col, row), report) :: mainWriterGo 2 (col + 1) ve rest
      else ((col, row), report) :: mainWriterGo (row + 1) col ve rest

/-- The output loop of main started at row 2, column 1, with no values
entered yet. -/
def mainWriter (values : List String) : List ((ℕ × ℕ) × String) :=
  mainWriterGo 2 1 0 values

end FinancialYearMargin

namespace GithubVersionFutureMargin


/-- HubSpotAPI.extract_data of src/GithubVersionFutureMargin.py
(lines 96-137): the same loop, additionally returning the totals and
the cost num_amounts - num_net_revenue; returning margin (evaluated
first on the return line) raises UnboundLocalError when the loop never
ran. -/
def extract_data (deals : List Deal) (rate : Option ℚ) :
    Except PyErr (ℚ × ℕ × ℚ × ℚ × ℚ) :=
  match foldSteps rate initState deals with
  | .error e => .error e
  | .ok st =>
      match st.margin with
      | none => .error .unboundLocal
      | some m =>
          .ok (m, st.idcal, st.num_amounts, st.num_net_revenue,
               st.num_amounts - st.num_net_revenue)



/-- The spreadsheet as the row allocator sees it: the first column of
each row (none models an empty cell) and the known extent row_count. -/
structure Worksheet where
  cell1 : ℕ → Option String
  row_count : ℕ

/-- HubSpotAPI.increment_file_number
(src/GithubVersionFutureMargin.py lines 139-162): reads the persisted
counter, writes back the incremented value, and returns the previous
value.  The state passing makes the file explicit: the result is the
returned previous number paired with the newly persisted content. -/
def increment_file_number (counter : ℕ) : ℕ × ℕ :=
  (counter, counter + 1)

/-- The for loop of get_next_open_row over
range(currentrow, row_count + 1): scan k consecutive rows starting at
r, returning the first whose first-column cell is empty. -/
def scanRows (ws : Worksheet) : ℕ → ℕ → Option ℕ
  | _, 0 => none
  | r, k + 1 =>
      if (ws.cell1 r).isNone then some r else scanRows ws (r + 1) k

/-- HubSpotAPI.get_next_open_row
(src/GithubVersionFutureMargin.py lines 164-182): increments the
persisted counter first, then scans forward from the previous counter
value through the known extent of the sheet; none models the fall
through return None when every scanned cell is occupied.  The second
component is the counter value persisted by the call. -/
def get_next_open_row (ws : Worksheet) (counter : ℕ) : Option ℕ × ℕ :=
  let pc := increment_file_number counter
  (scanRows ws pc.1 (ws.row_count + 1 - pc.1), pc.2)


/-- The pagination loop of main (src/GithubVersionFutureMargin.py
lines 213-220) with explicit fuel: while the cumulative length of the
answer is a multiple of 100, fetch another after page and append it;
some means the loop exited with that final answer within the given
fuel, none means it was still running. -/
def pagLoop (fetch : String → ℕ → List Deal) :
    ℕ → List Deal → Option (List Deal)
  | 0, answer => if answer.length % 100 = 0 then none else some answer
  | fuel + 1, answer =>
      if answer.length % 100 = 0 then
        pagLoop fetch fuel (answer ++ fetch "after" answer.length)
      else some answer

/-- The fetch phase of main: the initial limit fetch followed by the
pagination loop. -/
def mainPagination (fetch : String → ℕ → List Deal) (fuel : ℕ) :
    Option (List Deal) :=
  pagLoop fetch fuel (fetch "limit" 100)

end GithubVersionFutureMargin

/-- A deal outside the NZD branch that keeps the running total nonzero
steps the state by its amount and effective net revenue and recomputes
the margin. -/
theorem extractStep_base (rate : Option ℚ) (st : AggState) (d : Deal)
    (hc : ¬ d.currency = some "NZD") (h0 : ¬ st.num_amounts + d.amount = 0) :
    extractStep rate st d =
      .ok ⟨st.num_amounts + d.amount, st.num_net_revenue + effBase d,
           some ((st.num_net_revenue + effBase d) /
                 (st.num_amounts + d.amount) * 100),
           st.idcal + 1⟩ := by
  cases hnr : d.net_revenue with
  | none => simp [extractStep, hc, hnr, h0, effBase, PyNum.truthy]
  | some v => simp [extractStep, hc, hnr, h0, effBase, PyNum.truthy, PyNum.toRat]

/-- A deal outside the NZD branch that makes the running total zero
raises ZeroDivisionError at the margin computation. -/
theorem extractStep_zero_total (rate : Option ℚ) (st : AggState) (d : Deal)
    (hc : ¬ d.currency = some "NZD") (h0 : st.num_amounts + d.amount = 0) :
    extractStep rate st d = .error .zeroDiv := by
  cases hnr : d.net_revenue with
  | none => simp [extractStep, hc, hnr, h0]
  | some v => simp [extractStep, hc, hnr, h0]

/-- C2 (amended): the margin computation is not guarded.  Whenever the
accumulated total amount becomes zero at a step, the per-iteration
division raises ZeroDivisionError and no margin (NA or otherwise) is
produced; in particular a first record with amount zero makes
extract_data raise. -/
theorem zero_total_amount_divzero (rate : Option ℚ) (st : AggState)
    (d : Deal) (ds : List Deal)
    (hc : ¬ d.currency = some "NZD") (h0 : st.num_amounts + d.amount = 0) :
    foldSteps rate st (d :: ds) = .error .zeroDiv ∧
    ∀ (rate2 : Option ℚ) (d2 : Deal) (ds2 : List Deal),
      ¬ d2.currency = some "NZD" → d2.amount = 0 →
      FinancialYearMargin.extract_data (d2 :: ds2) rate2 = .error .zeroDiv := by
  constructor
  · simp [foldSteps, extractStep_zero_total rate st d hc h0]
  · intro rate2 d2 ds2 hc2 ha2
    have h02 : initState.num_amounts + d2.amount = 0 := by
      simp [initState, ha2]
    simp [FinancialYearMargin.extract_data, foldSteps,
          extractStep_zero_total rate2 initState d2 hc2 h02]

/-- Witness for zero_total_amount_divzero at a concrete input. -/
theorem zero_total_amount_divzero_witness :
    foldSteps none initState [(⟨0, some 5, some "AUD"⟩ : Deal)] =
      .error .zeroDiv :=
  (zero_total_amount_divzero none initState ⟨0, some 5, some "AUD"⟩ []
    (by decide) (by norm_num [initState])).1

/-- C2 counterexample: the code is not guarded against a zero total:
a single record with amount zero makes extract_data raise
ZeroDivisionError instead of yielding an undefined/NA margin. -/
theorem unguarded_divzero_cex :
    FinancialYearMargin.extract_data [(⟨0, some 5, some "AUD"⟩ : Deal)] none =
      .error .zeroDiv := by
  norm_num [FinancialYearMargin.extract_data, foldSteps, extractStep,
            PyNum.truthy, initState]

/-- Unfolding one successful iteration of the loop. -/
theorem foldSteps_cons_ok (rate : Option ℚ) (st st' : AggState) (d : Deal)
    (ds : List Deal) (h : extractStep rate st d = .ok st') :
    foldSteps rate st (d :: ds) = foldSteps rate st' ds := by
  simp only [foldSteps, h]

/-- Over a run of deals outside the NZD branch whose accumulated total
amount never hits zero, the loop sums the amounts and effective net
revenues and the final margin is the ratio of the final totals. -/
theorem foldSteps_base :
    ∀ (ds : List Deal) (d : Deal) (rate : Option ℚ) (st : AggState),
      (∀ x ∈ d :: ds, ¬ x.currency = some "NZD") →
      (∀ k, k < (d :: ds).length →
        ¬ st.num_amounts + (((d :: ds).take (k + 1)).map Deal.amount).sum = 0) →
      foldSteps rate st (d :: ds) =
        .ok ⟨st.num_amounts + ((d :: ds).map Deal.amount).sum,
             st.num_net_revenue + ((d :: ds).map effBase).sum,
             some ((st.num_net_revenue + ((d :: ds).map effBase).sum) /
                   (st.num_amounts + ((d :: ds).map Deal.amount).sum) * 100),
             st.idcal + (d :: ds).length⟩ := by
  intro ds
  induction ds with
  | nil =>
      intro d rate st hcur hpre
      have hc : ¬ d.currency = some "NZD" := hcur d (by simp)
      have h0 : ¬ st.num_amounts + d.amount = 0 := by
        have := hpre 0 (by simp)
        simpa using this
      simp [foldSteps, extractStep_base rate st d hc h0]
  | cons e rest ih =>
      intro d rate st hcur hpre
      have hc : ¬ d.currency = some "NZD" := hcur d (by simp)
      have h0 : ¬ st.num_amounts + d.amount = 0 := by
        have := hpre 0 (by simp)
        simpa using this
      have hcur2 : ∀ x ∈ e :: rest, ¬ x.currency = some "NZD" := by
        intro x hx
        exact hcur x (List.mem_cons_of_mem d hx)
      have hpre2 : ∀ k, k < (e :: rest).length →
          ¬ (st.num_amounts + d.amount) +
              (((e :: rest).take (k + 1)).map Deal.amount).sum = 0 := by
        intro k hk
        have := hpre (k + 1) (by simpa using Nat.succ_lt_succ hk)
        simpa [add_assoc] using this
      have hrec := ih e rate
        ⟨st.num_amounts + d.amount, st.num_net_revenue + effBase d,
         some ((st.num_net_revenue + effBase d) /
               (st.num_amounts + d.amount) * 100),
         st.idcal + 1⟩ hcur2 hpre2
      rw [foldSteps_cons_ok rate st _ d (e :: rest)
            (extractStep_base rate st d hc h0), hrec]
      simp [add_assoc]
      omega

/-- C3 counterexample: a base-currency sequence with a zero first
amount makes extract_data raise ZeroDivisionError at the first
per-iteration margin computation, although the sum of amounts of the
whole sequence is nonzero, so no margin equal to the claimed formula
(100 * 51 / 100 with count 2) is returned. -/
theorem base_currency_formula_cex :
    FinancialYearMargin.extract_data
        [(⟨0, some 1, some "AUD"⟩ : Deal), ⟨100, some 50, some "AUD"⟩] none =
      .error .zeroDiv ∧
    FinancialYearMargin.extract_data
        [(⟨0, some 1, some "AUD"⟩ : Deal), ⟨100, some 50, some "AUD"⟩] none ≠
      .ok (100 * ((1 : ℚ) + 50) / (0 + 100), 2) := by
  have h : FinancialYearMargin.extract_data
      [(⟨0, some 1, some "AUD"⟩ : Deal), ⟨100, some 50, some "AUD"⟩] none =
        .error .zeroDiv := by
    norm_num [FinancialYearMargin.extract_data, foldSteps, extractStep,
              PyNum.truthy, initState]
  refine ⟨h, ?_⟩
  rw [h]
  simp

/-- C3 (amended): for every non-empty base-currency deal sequence whose
accumulated total amount is nonzero after every record (the
per-iteration division makes this a necessary side condition),
extract_data returns the margin 100 * sum of effective net revenues
over sum of amounts and the record count, and the concrete scenario of
the claim holds: amounts 100 and 200 with net revenues 50 and missing
give totals 300 and 250, margin 250/3 (83.33 to two decimals) and
count 2. -/
theorem extract_data_base_currency_formula (rate : Option ℚ) (d : Deal)
    (ds : List Deal)
    (hcur : ∀ x ∈ d :: ds, ¬ x.currency = some "NZD")
    (hpre : ∀ k, k < (d :: ds).length →
      ¬ (((d :: ds).take (k + 1)).map Deal.amount).sum = 0) :
    FinancialYearMargin.extract_data (d :: ds) rate =
      .ok (100 * ((d :: ds).map effBase).sum / ((d :: ds).map Deal.amount).sum,
           (d :: ds).length) ∧
    GithubVersionFutureMargin.extract_data
        [(⟨100, some 50, some "AUD"⟩ : Deal), ⟨200, none, some "AUD"⟩] none =
      .ok (250 / 3, 2, 300, 250, 50) ∧
    pyRound2 (250 / 3) = 8333 / 100 := by
  refine ⟨?_, ?_, ?_⟩
  · have hpre0 : ∀ k, k < (d :: ds).length →
        ¬ initState.num_amounts +
            (((d :: ds).take (k + 1)).map Deal.amount).sum = 0 := by
      intro k hk
      simpa [initState] using hpre k hk
    rw [FinancialYearMargin.extract_data,
        foldSteps_base ds d rate initState hcur hpre0]
    simp [initState]
    ring
  · norm_num [GithubVersionFutureMargin.extract_data, foldSteps, extractStep,
              PyNum.truthy, PyNum.toRat, initState]
  · norm_num [pyRound2, Int.floor_eq_iff]

/-- Witness for extract_data_base_currency_formula: the end-to-end
scenario of the claim, deals with amounts 100 and 200, net revenues 50
and missing, all in the base currency. -/
theorem extract_data_base_currency_formula_witness :
    FinancialYearMargin.extract_data
        [(⟨100, some 50, some "AUD"⟩ : Deal), ⟨200, none, some "AUD"⟩] none =
      .ok (100 * (([(⟨100, some 50, some "AUD"⟩ : Deal),
                    ⟨200, none, some "AUD"⟩]).map effBase).sum /
             (([(⟨100, some 50, some "AUD"⟩ : Deal),
                ⟨200, none, some "AUD"⟩]).map Deal.amount).sum,
           2) :=
  (extract_data_base_currency_formula none ⟨100, some 50, some "AUD"⟩
    [⟨200, none, some "AUD"⟩]
    (by simp)
    (by intro k hk
        simp only [List.length_cons, List.length_nil] at hk
        interval_cases k <;> norm_num [effBase])).1

/-- C4 counterexample: an NZD deal with net revenue 0 and a present
rate does not contribute 0 / rate = 0 to the running net revenue: the
converted float 0.0 is falsy, so the amount fallback fires and the deal
contributes its amount (here 100) instead. -/
theorem nzd_zero_net_revenue_cex :
    extractStep (some 2) initState (⟨100, some 0, some "NZD"⟩ : Deal) =
      .ok ⟨100, 100, some 100, 1⟩ ∧
    initState.num_net_revenue + (0 : ℚ) / 2 ≠ 100 := by
  constructor
  · norm_num [extractStep, PyNum.truthy, PyNum.toRat, initState]
  · norm_num [initState]

/-- C4 (amended): an NZD deal with net revenue R contributes R / rate
to the total when the rate is present, nonzero, and R is nonzero
(a zero converted value is falsy and triggers the amount fallback
instead); it contributes R unchanged when the rate is absent.  The
side conditions that the rate and the stepped total are nonzero are
forced by the divisions the code performs. -/
theorem nzd_net_revenue_conversion (st : AggState) (d : Deal) (R r : ℚ)
    (hc : d.currency = some "NZD") (hnr : d.net_revenue = some R)
    (hna : ¬ st.num_amounts + d.amount = 0) (hr : ¬ r = 0) :
    (¬ R = 0 →
      extractStep (some r) st d =
        .ok ⟨st.num_amounts + d.amount, st.num_net_revenue + R / r,
             some ((st.num_net_revenue + R / r) /
                   (st.num_amounts + d.amount) * 100),
             st.idcal + 1⟩) ∧
    (extractStep none st d =
      .ok ⟨st.num_amounts + d.amount, st.num_net_revenue + R,
           some ((st.num_net_revenue + R) /
                 (st.num_amounts + d.amount) * 100),
           st.idcal + 1⟩) ∧
    (R = 0 →
      extractStep (some r) st d =
        .ok ⟨st.num_amounts + d.amount, st.num_net_revenue + d.amount,
             some ((st.num_net_revenue + d.amount) /
                   (st.num_amounts + d.amount) * 100),
             st.idcal + 1⟩) := by
  refine ⟨?_, ?_, ?_⟩
  · intro hR
    have ht : PyNum.truthy (.floatv (R / r)) = true := by
      simp [PyNum.truthy, bne_iff_ne, div_ne_zero hR hr]
    simp [extractStep, hc, hnr, hr, hna, ht, PyNum.toRat]
  · simp [extractStep, hc, hnr, hna, PyNum.truthy, PyNum.toRat]
  · intro hR
    subst hR
    simp [extractStep, hc, hnr, hr, hna, PyNum.truthy, PyNum.toRat]

/-- Witness for nzd_net_revenue_conversion: the scenario of the claim,
a single NZD deal with amount 100 and net revenue 100 at rate 2 yields
effective net revenue 50 and margin 50 percent. -/
theorem nzd_net_revenue_conversion_witness :
    extractStep (some 2) initState (⟨100, some 100, some "NZD"⟩ : Deal) =
      .ok ⟨initState.num_amounts + 100, initState.num_net_revenue + 100 / 2,
           some ((initState.num_net_revenue + 100 / 2) /
                 (initState.num_amounts + 100) * 100),
           initState.idcal + 1⟩ :=
  (nzd_net_revenue_conversion initState ⟨100, some 100, some "NZD"⟩ 100 2
    rfl rfl (by norm_num [initState]) (by norm_num)).1 (by norm_num)

/-- The margin of the nzd_net_revenue_conversion witness is 50 percent
and its effective net revenue is 50, as the claim states. -/
theorem nzd_scenario_margin_is_fifty :
    initState.num_net_revenue + (100 : ℚ) / 2 = 50 ∧
    (initState.num_net_revenue + (100 : ℚ) / 2) /
        (initState.num_amounts + 100) * 100 = 50 := by
  norm_num [initState]

/-- C5 counterexample: the amount fallback for a missing net revenue
does not apply regardless of currency and rate: an NZD deal with a
missing net revenue and a present rate raises a TypeError at
float(None) before the fallback test is reached. -/
theorem missing_net_revenue_nzd_cex :
    FinancialYearMargin.extract_data
        [(⟨100, none, some "NZD"⟩ : Deal)] (some 2) = .error .typeError ∧
    FinancialYearMargin.extract_data
        [(⟨100, none, some "NZD"⟩ : Deal)] (some 2) ≠ .ok (100, 1) := by
  have h : FinancialYearMargin.extract_data
      [(⟨100, none, some "NZD"⟩ : Deal)] (some 2) = .error .typeError := by
    simp [FinancialYearMargin.extract_data, foldSteps, extractStep]
  refine ⟨h, ?_⟩
  rw [h]
  simp

/-- C5 (amended): a deal with missing or empty net revenue contributes
its amount to the running net revenue provided the NZD conversion
branch is not taken, that is when its currency is not NZD or the rate
is absent; an NZD deal with a missing net revenue and a present rate
raises instead.  A single-deal batch with missing net revenue and
nonzero non-NZD amount yields margin 100 percent. -/
theorem missing_net_revenue_amount_fallback (rate : Option ℚ)
    (st : AggState) (d : Deal)
    (hnr : d.net_revenue = none)
    (hguard : ¬ d.currency = some "NZD" ∨ rate = none)
    (hna : ¬ st.num_amounts + d.amount = 0) :
    extractStep rate st d =
      .ok ⟨st.num_amounts + d.amount, st.num_net_revenue + d.amount,
           some ((st.num_net_revenue + d.amount) /
                 (st.num_amounts + d.amount) * 100),
           st.idcal + 1⟩ ∧
    ∀ (a : ℚ) (c : Option String), ¬ a = 0 → ¬ c = some "NZD" →
      FinancialYearMargin.extract_data [⟨a, none, c⟩] rate = .ok (100, 1) := by
  constructor
  · rcases hguard with hcg | hrate
    · simp [extractStep, hcg, hnr, hna, PyNum.truthy]
    · subst hrate
      by_cases hcg : d.currency = some "NZD" <;>
        simp [extractStep, hcg, hnr, hna, PyNum.truthy]
  · intro a c ha hcg
    have h0 : ¬ initState.num_amounts + (⟨a, none, c⟩ : Deal).amount = 0 := by
      simpa [initState] using ha
    rw [FinancialYearMargin.extract_data,
        show foldSteps rate initState [(⟨a, none, c⟩ : Deal)] =
          foldSteps rate _ [] from
            foldSteps_cons_ok rate initState _ ⟨a, none, c⟩ []
              (extractStep_base rate initState ⟨a, none, c⟩ hcg h0)]
    simp [foldSteps, effBase, initState, div_self ha]

/-- Witness for missing_net_revenue_amount_fallback at a concrete
input: a single base-currency deal with amount 7 and missing net
revenue has margin 100 percent. -/
theorem missing_net_revenue_amount_fallback_witness :
    FinancialYearMargin.extract_data
        [(⟨(7 : ℚ), none, some "AUD"⟩ : Deal)] none = .ok (100, 1) :=
  (missing_net_revenue_amount_fallback none initState
    ⟨(7 : ℚ), none, some "AUD"⟩ rfl (Or.inr rfl)
    (by norm_num [initState])).2 7 (some "AUD") (by norm_num) (by simp)

/-- C9 counterexample: a record with a negative amount makes the
running total amount decrease across one iteration (from 0 to -5), so
the aggregation state is not mutated monotonically on sequences that
contain deals with negative amounts. -/
theorem negative_amount_decreases_total_cex :
    extractStep none initState (⟨-5, some 1, some "AUD"⟩ : Deal) =
      .ok ⟨-5, 1, some (1 / (-5) * 100), 1⟩ ∧
    (-5 : ℚ) < initState.num_amounts := by
  constructor
  · norm_num [extractStep, PyNum.truthy, PyNum.toRat, initState]
  · norm_num [initState]

/-- C9 (amended): across one successful iteration the record count
always increases by exactly 1, and the running totals never decrease
provided the amount of the record is nonnegative, its net revenue is
nonnegative when present, and the rate is positive when present; with
negative amounts or net revenues the totals can decrease. -/
theorem aggregation_state_monotone (rate : Option ℚ) (st st' : AggState)
    (d : Deal)
    (h : extractStep rate st d = .ok st')
    (ha : 0 ≤ d.amount)
    (hnr : ∀ v, d.net_revenue = some v → 0 ≤ v)
    (hr : ∀ x, rate = some x → 0 < x) :
    st.num_amounts ≤ st'.num_amounts ∧
    st.num_net_revenue ≤ st'.num_net_revenue ∧
    st'.idcal = st.idcal + 1 := by
  by_cases hc : d.currency = some "NZD"
  · cases hrate : rate with
    | none =>
        cases hnrv : d.net_revenue with
        | none =>
            simp [extractStep, hc, hnrv, hrate, PyNum.truthy,
                  PyNum.toRat] at h
            split_ifs at h
            all_goals try simp at h
            all_goals subst h
            all_goals refine ⟨?_, ?_, ?_⟩ <;> simp <;> try linarith
        | some v =>
            have hv : 0 ≤ v := hnr v hnrv
            simp [extractStep, hc, hnrv, hrate, PyNum.truthy,
                  PyNum.toRat] at h
            split_ifs at h
            all_goals try simp at h
            all_goals subst h
            all_goals refine ⟨?_, ?_, ?_⟩ <;> simp <;> try linarith
    | some x =>
        have hx : 0 < x := hr x hrate
        have hx0 : ¬ x = 0 := ne_of_gt hx
        cases hnrv : d.net_revenue with
        | none => simp [extractStep, hc, hnrv, hrate] at h
        | some v =>
            have hv : 0 ≤ v := hnr v hnrv
            have hvx : 0 ≤ v / x := div_nonneg hv hx.le
            simp [extractStep, hc, hnrv, hrate, hx0, PyNum.truthy,
                  PyNum.toRat] at h
            split_ifs at h
            all_goals try simp at h
            all_goals subst h
            all_goals refine ⟨?_, ?_, ?_⟩ <;> simp <;> try linarith
  · cases hnrv : d.net_revenue with
    | none =>
        simp [extractStep, hc, hnrv, PyNum.truthy, PyNum.toRat] at h
        split_ifs at h
        all_goals try simp at h
        all_goals subst h
        all_goals refine ⟨?_, ?_, ?_⟩ <;> simp <;> try linarith
    | some v =>
        have hv : 0 ≤ v := hnr v hnrv
        simp [extractStep, hc, hnrv, PyNum.truthy, PyNum.toRat] at h
        split_ifs at h
        all_goals try simp at h
        all_goals subst h
        all_goals refine ⟨?_, ?_, ?_⟩ <;> simp <;> try linarith

/-- Witness for aggregation_state_monotone at a concrete input: one
deal of amount 3 and net revenue 2 steps the initial state upward and
the count to 1. -/
theorem aggregation_state_monotone_witness :
    initState.num_amounts ≤ ((⟨3, 2, some (2 / 3 * 100), 1⟩ : AggState)).num_amounts ∧
    initState.num_net_revenue ≤
      ((⟨3, 2, some (2 / 3 * 100), 1⟩ : AggState)).num_net_revenue ∧
    ((⟨3, 2, some (2 / 3 * 100), 1⟩ : AggState)).idcal = initState.idcal + 1 :=
  aggregation_state_monotone none initState ⟨3, 2, some (2 / 3 * 100), 1⟩
    ⟨3, some 2, some "AUD"⟩
    (by norm_num [extractStep, PyNum.truthy, PyNum.toRat, initState])
    (by norm_num)
    (by intro v hv; cases hv; norm_num)
    (by intro x hx; simp at hx)

/-- C1: for the empty deal sequence the orchestrator alltime appends the
NA sentinel for both margin and count; it never raises and never reaches
the division step of extract_data, because the guard on all_deals means
extract_data is not invoked at all. -/
theorem cellResult_empty_is_NA :
    ∀ rate : Option ℚ,
      FinancialYearMargin.cellResult rate [] = .ok (none, none) ∧
      ∀ e : PyErr, FinancialYearMargin.cellResult rate [] ≠ .error e := by
  intro rate
  constructor
  · rfl
  · intro e h
    simp [FinancialYearMargin.cellResult] at h

/-- Witness for cellResult_empty_is_NA at a concrete input: with an
absent rate, the empty cell is the NA pair and is not the
ZeroDivisionError outcome. -/
theorem cellResult_empty_is_NA_witness :
    FinancialYearMargin.cellResult none [] = .ok (none, none) ∧
    FinancialYearMargin.cellResult none [] ≠ .error .zeroDiv :=
  ⟨(cellResult_empty_is_NA none).1, (cellResult_empty_is_NA none).2 .zeroDiv⟩


namespace GithubVersionFutureMargin

/-- Characterization of the forward scan: it returns the first empty
row in the scanned window, and none exactly when the window has no
empty row. -/
theorem scanRows_spec (ws : Worksheet) :
    ∀ (k r : ℕ),
      (∀ j, scanRows ws r k = some j →
        ws.cell1 j = none ∧ r ≤ j ∧ j < r + k ∧
        ∀ i, r ≤ i → i < j → ¬ ws.cell1 i = none) ∧
      (scanRows ws r k = none ↔
        ∀ i, r ≤ i → i < r + k → ¬ ws.cell1 i = none) := by
  intro k
  induction k with
  | zero =>
      intro r
      constructor
      · intro j hj
        simp [scanRows] at hj
      · simp only [scanRows]
        constructor
        · intro _ i h1 h2
          exact absurd h2 (by omega)
        · intro _
          trivial
  | succ n ih =>
      intro r
      by_cases hcell : ws.cell1 r = none
      · constructor
        · intro j hj
          simp [scanRows, hcell] at hj
          subst hj
          exact ⟨hcell, Nat.le_refl _, by omega,
                 fun i h1 h2 => absurd h2 (by omega)⟩
        · simp only [scanRows, hcell, Option.isNone_none, if_true]
          constructor
          · intro hj
            exact absurd hj (by simp)
          · intro hall
            exact absurd hcell (hall r (le_refl r) (by omega))
      · have hrec : scanRows ws r (n + 1) = scanRows ws (r + 1) n := by
          simp [scanRows, Option.isNone_iff_eq_none, hcell]
        constructor
        · intro j hj
          rw [hrec] at hj
          obtain ⟨h1, h2, h3, h4⟩ := (ih (r + 1)).1 j hj
          refine ⟨h1, by omega, by omega, ?_⟩
          intro i hi1 hi2
          rcases Nat.eq_or_lt_of_le hi1 with rfl | hi1'
          · exact hcell
          · exact h4 i (by omega) hi2
        · rw [hrec]
          constructor
          · intro hn i hi1 hi2
            rcases Nat.eq_or_lt_of_le hi1 with rfl | hi1'
            · exact hcell
            · exact (ih (r + 1)).2.mp hn i (by omega) (by omega)
          · intro hall
            exact (ih (r + 1)).2.mpr fun i hi1 hi2 => hall i (by omega) (by omega)

/-- C7: get_next_open_row scans the first column linearly from the
persisted cursor value through the known extent of the sheet, returns
the first row whose first-column cell is empty, and returns the
sheet-full sentinel (None) exactly when no scanned cell is empty. -/
theorem get_next_open_row_first_empty (ws : Worksheet) (counter : ℕ) :
    (∀ j, (get_next_open_row ws counter).1 = some j →
      ws.cell1 j = none ∧ counter ≤ j ∧ j ≤ ws.row_count ∧
      ∀ i, counter ≤ i → i < j → ¬ ws.cell1 i = none) ∧
    ((get_next_open_row ws counter).1 = none ↔
      ∀ i, counter ≤ i → i ≤ ws.row_count → ¬ ws.cell1 i = none) := by
  have hs := scanRows_spec ws (ws.row_count + 1 - counter) counter
  constructor
  · intro j hj
    obtain ⟨h1, h2, h3, h4⟩ := hs.1 j hj
    exact ⟨h1, h2, by omega, h4⟩
  · constructor
    · intro hn i hi1 hi2
      exact hs.2.mp hn i hi1 (by omega)
    · intro hall
      exact hs.2.mpr fun i hi1 hi2 => hall i hi1 (by omega)

/-- Witness for get_next_open_row_first_empty: with the first two rows
occupied and extent 5, the allocator returns row 2. -/
theorem get_next_open_row_first_empty_witness :
    (⟨fun i => if i < 2 then some "x" else none, 5⟩ : Worksheet).cell1 2 =
        none ∧
    0 ≤ 2 ∧ 2 ≤ (⟨fun i => if i < 2 then some "x" else none, 5⟩ :
        Worksheet).row_count ∧
    ∀ i, 0 ≤ i → i < 2 →
      ¬ (⟨fun i => if i < 2 then some "x" else none, 5⟩ :
          Worksheet).cell1 i = none :=
  (get_next_open_row_first_empty
      ⟨fun i => if i < 2 then some "x" else none, 5⟩ 0).1 2 rfl

/-- C6: every call to the allocator persists the incremented counter
before and independently of the forward scan, so the persisted counter
strictly increases by exactly 1 per call, and each of two successive
calls with no intervening writes returns a row at least as large as
the counter persisted before it. -/
theorem row_allocator_counter_advance (ws : Worksheet) (counter : ℕ) :
    (get_next_open_row ws counter).2 = counter + 1 ∧
    (get_next_open_row ws (get_next_open_row ws counter).2).2 =
      counter + 2 ∧
    (∀ j, (get_next_open_row ws counter).1 = some j → counter ≤ j) ∧
    (∀ j, (get_next_open_row ws (get_next_open_row ws counter).2).1 =
        some j → counter + 1 ≤ j) := by
  refine ⟨rfl, rfl, ?_, ?_⟩
  · intro j hj
    exact ((scanRows_spec ws (ws.row_count + 1 - counter) counter).1 j hj).2.1
  · intro j hj
    exact ((scanRows_spec ws (ws.row_count + 1 - (counter + 1))
      (counter + 1)).1 j hj).2.1

/-- Witness for row_allocator_counter_advance: on an all-empty sheet
starting from counter 0, the call persists 1 and returns row 0. -/
theorem row_allocator_counter_advance_witness :
    (get_next_open_row ⟨fun _ => none, 3⟩ 0).2 = 0 + 1 ∧ (0 : ℕ) ≤ 0 :=
  ⟨(row_allocator_counter_advance ⟨fun _ => none, 3⟩ 0).1,
   (row_allocator_counter_advance ⟨fun _ => none, 3⟩ 0).2.2.1 0 rfl⟩

end GithubVersionFutureMargin

namespace FinancialYearMargin

/-- The inner loop produces one margin and one total per stage
category, in the order of the category list, each the cell result of
the concatenated limit and after fetches of that category. -/
theorem alltimeLoop_spec
    (fetch : String → String → List String → String → List Deal)
    (rate : Option ℚ) (start stop : String) :
    ∀ (cats : List (List String)) (ms : List (Option ℚ))
      (ts : List (Option ℕ)),
      alltimeLoop fetch rate start stop cats = .ok (ms, ts) →
      ms.length = cats.length ∧ ts.length = cats.length ∧
      ∀ (j : ℕ) (cat : List String), cats[j]? = some cat →
        ∃ m t, cellResult rate
            (fetch start stop cat "limit" ++ fetch start stop cat "after") =
              .ok (m, t) ∧
          ms[j]? = some m ∧ ts[j]? = some t := by
  intro cats
  induction cats with
  | nil =>
      intro ms ts h
      simp only [alltimeLoop, Except.ok.injEq, Prod.mk.injEq] at h
      obtain ⟨hms, hts⟩ := h
      subst hms
      subst hts
      refine ⟨rfl, rfl, ?_⟩
      intro j cat hj
      simp at hj
  | cons c rest ih =>
      intro ms ts h
      simp only [alltimeLoop] at h
      cases hcell : cellResult rate
          (fetch start stop c "limit" ++ fetch start stop c "after") with
      | error e => rw [hcell] at h; simp at h
      | ok mt =>
          obtain ⟨m, t⟩ := mt
          rw [hcell] at h
          cases hrec : alltimeLoop fetch rate start stop rest with
          | error e => rw [hrec] at h; simp at h
          | ok msts =>
              obtain ⟨ms2, ts2⟩ := msts
              rw [hrec] at h
              simp only [Except.ok.injEq, Prod.mk.injEq] at h
              obtain ⟨hms, hts⟩ := h
              subst hms
              subst hts
              obtain ⟨l1, l2, hspec⟩ := ih ms2 ts2 hrec
              refine ⟨by simp [l1], by simp [l2], ?_⟩
              intro j cat hj
              cases j with
              | zero =>
                  simp only [List.getElem?_cons_zero, Option.some.injEq] at hj
                  subst hj
                  exact ⟨m, t, hcell, by simp, by simp⟩
              | succ j =>
                  simp only [List.getElem?_cons_succ] at hj ⊢
                  exact hspec j cat hj

/-- The value entered k-th (0-based) by the output loop, entered when
values_entered = ve at a state consistent with ve, lands in column
1 + (ve + k) / 3 and row 2 + (ve + k) % 3. -/
theorem mainWriterGo_spec :
    ∀ (vs : List String) (ve k : ℕ) (v : String),
      vs[k]? = some v →
      (mainWriterGo (2 + ve % 3) (1 + ve / 3) ve vs)[k]? =
        some ((1 + (ve + k) / 3, 2 + (ve + k) % 3), v) := by
  intro vs
  induction vs with
  | nil =>
      intro ve k v hv
      simp at hv
  | cons w ws ih =>
      intro ve k v hv
      cases k with
      | zero =>
          simp only [List.getElem?_cons_zero, Option.some.injEq] at hv
          subst hv
          by_cases h3 : (ve + 1) % 3 = 0 <;>
            simp [mainWriterGo, h3]
      | succ k =>
          simp only [List.getElem?_cons_succ] at hv
          have hgo := ih (ve + 1) k v hv
          have hidx : ve + 1 + k = ve + (k + 1) := by omega
          rw [hidx] at hgo
          by_cases h3 : (ve + 1) % 3 = 0
          · rw [show 2 + (ve + 1) % 3 = 2 from by omega,
                show 1 + (ve + 1) / 3 = 1 + ve / 3 + 1 from by omega] at hgo
            simp only [mainWriterGo, h3]
            simp only [if_pos, List.getElem?_cons_succ]
            exact hgo
          · rw [show 2 + (ve + 1) % 3 = 2 + ve % 3 + 1 from by omega,
                show 1 + (ve + 1) / 3 = 1 + ve / 3 from by omega] at hgo
            simp [mainWriterGo, h3]
            exact hgo

/-- C8: the orchestrator fills the result lists in period-major,
category-minor order — the cells of the current quarter occupy
positions 0 to n-1 in category order and the cells of the financial
year occupy positions n to 2n-1 — and the output loop of main writes
the k-th result to column 1 + k / 3 and row 2 + k % 3, advancing to a
new column after every 3 results and moving down the rows 2, 3, 4
within each 3-result block. -/
theorem alltime_order_and_writer_layout
    (fetch : String → String → List String → String → List Deal)
    (deal_stage : List (List String)) (qs qe fs fe : String)
    (rate : Option ℚ) (ms : List (Option ℚ)) (ts : List (Option ℕ))
    (h : alltime fetch deal_stage qs qe fs fe rate = .ok (ms, ts)) :
    ms.length = 2 * deal_stage.length ∧
    (∀ (j : ℕ) (cat : List String), deal_stage[j]? = some cat →
      ∃ m t, cellResult rate
          (fetch qs qe cat "limit" ++ fetch qs qe cat "after") = .ok (m, t) ∧
        ms[j]? = some m ∧ ts[j]? = some t) ∧
    (∀ (j : ℕ) (cat : List String), deal_stage[j]? = some cat →
      ∃ m t, cellResult rate
          (fetch fs fe cat "limit" ++ fetch fs fe cat "after") = .ok (m, t) ∧
        ms[deal_stage.length + j]? = some m ∧
        ts[deal_stage.length + j]? = some t) ∧
    (∀ (values : List String) (k : ℕ) (v : String), values[k]? = some v →
      (mainWriter values)[k]? = some ((1 + k / 3, 2 + k % 3), v)) := by
  have hwriter : ∀ (values : List String) (k : ℕ) (v : String),
      values[k]? = some v →
      (mainWriter values)[k]? = some ((1 + k / 3, 2 + k % 3), v) := by
    intro values k v hv
    simpa [mainWriter] using mainWriterGo_spec values 0 k v hv
  simp only [alltime] at h
  cases h1 : alltimeLoop fetch rate qs qe deal_stage with
  | error e => rw [h1] at h; simp at h
  | ok mt1 =>
      obtain ⟨m1, t1⟩ := mt1
      rw [h1] at h
      cases h2 : alltimeLoop fetch rate fs fe deal_stage with
      | error e => rw [h2] at h; simp at h
      | ok mt2 =>
          obtain ⟨m2, t2⟩ := mt2
          rw [h2] at h
          simp only [Except.ok.injEq, Prod.mk.injEq] at h
          obtain ⟨hms, hts⟩ := h
          subst hms
          subst hts
          obtain ⟨l1m, l1t, hs1⟩ := alltimeLoop_spec fetch rate qs qe
            deal_stage m1 t1 h1
          obtain ⟨l2m, l2t, hs2⟩ := alltimeLoop_spec fetch rate fs fe
            deal_stage m2 t2 h2
          refine ⟨by simp [l1m, l2m]; omega, ?_, ?_, hwriter⟩
          · intro j cat hj
            have hjlt : j < deal_stage.length := by
              by_contra hge
              push_neg at hge
              rw [List.getElem?_eq_none hge] at hj
              simp at hj
            obtain ⟨m, t, hcell, hm, ht⟩ := hs1 j cat hj
            refine ⟨m, t, hcell, ?_, ?_⟩
            · rw [List.getElem?_append_left (by omega : j < m1.length)]
              exact hm
            · rw [List.getElem?_append_left (by omega : j < t1.length)]
              exact ht
          · intro j cat hj
            obtain ⟨m, t, hcell, hm, ht⟩ := hs2 j cat hj
            refine ⟨m, t, hcell, ?_, ?_⟩
            · rw [List.getElem?_append_right (by omega : m1.length ≤
                    deal_stage.length + j)]
              rw [show deal_stage.length + j - m1.length = j from by omega]
              exact hm
            · rw [List.getElem?_append_right (by omega : t1.length ≤
                    deal_stage.length + j)]
              rw [show deal_stage.length + j - t1.length = j from by omega]
              exact ht

/-- Witness for alltime_order_and_writer_layout: with a fetch that
returns no deals and three stage categories, alltime succeeds with six
NA cells, and the fourth written value lands in column 2, row 2. -/
theorem alltime_order_and_writer_layout_witness :
    (mainWriter ["a", "b", "c", "d"])[3]? =
      some ((1 + 3 / 3, 2 + 3 % 3), "d") :=
  (alltime_order_and_writer_layout (fun _ _ _ _ => ([] : List Deal))
      [["s1"], ["s2"], ["s3"]] "qs" "qe" "fs" "fe" none
      [none, none, none, none, none, none]
      [none, none, none, none, none, none] rfl).2.2.2
    ["a", "b", "c", "d"] 3 "d" rfl

end FinancialYearMargin

namespace GithubVersionFutureMargin

/-- C10: the pagination loop of main keeps fetching while the
cumulative number of fetched deals is a multiple of 100: it can only
exit with a cumulative count that is not a multiple of 100, it exits
immediately once the count is not a multiple of 100, and when the
initial fetch returns a multiple of 100 deals (including zero) and
every subsequent after fetch returns an empty page, the loop never
terminates (it is still running after any amount of fuel). -/
theorem pagination_loop_termination (fetch : String → ℕ → List Deal) :
    (∀ fuel answer res, pagLoop fetch fuel answer = some res →
      ¬ res.length % 100 = 0) ∧
    (∀ fuel answer, ¬ answer.length % 100 = 0 →
      pagLoop fetch fuel answer = some answer) ∧
    ((fetch "limit" 100).length % 100 = 0 →
      (∀ l, fetch "after" l = []) →
      ∀ fuel, mainPagination fetch fuel = none) := by
  refine ⟨?_, ?_, ?_⟩
  · intro fuel
    induction fuel with
    | zero =>
        intro answer res h
        simp only [pagLoop] at h
        split_ifs at h with h0
        simp only [Option.some.injEq] at h
        subst h
        exact h0
    | succ n ih =>
        intro answer res h
        simp only [pagLoop] at h
        split_ifs at h with h0
        · exact ih _ res h
        · simp only [Option.some.injEq] at h
          subst h
          exact h0
  · intro fuel answer h0
    cases fuel <;> simp [pagLoop, h0]
  · intro hinit hafter fuel
    induction fuel with
    | zero => simp [mainPagination, pagLoop, hinit]
    | succ n ih =>
        have hstep : pagLoop fetch (n + 1) (fetch "limit" 100) =
            pagLoop fetch n (fetch "limit" 100) := by
          simp [pagLoop, hinit, hafter]
        simp only [mainPagination] at ih ⊢
        rw [hstep]
        exact ih

/-- Witness for pagination_loop_termination: a deal source with no
matching deals (every page empty, total 0 a multiple of 100) keeps the
loop running after 5 iterations of fuel. -/
theorem pagination_loop_termination_witness :
    mainPagination (fun _ _ => ([] : List Deal)) 5 = none :=
  (pagination_loop_termination (fun _ _ => ([] : List Deal))).2.2
    rfl (fun _ => rfl) 5

end GithubVersionFutureMargin
